import Mathlib

/-!
Verification of the ONNX `Squeeze` front extractor
(`model-optimizer/extensions/front/onnx/squeeze_ext.py`).

The extractor reads the optional integer-list attribute `axes` from a
serialized ONNX operator node, converts it to a numpy `int64` array,
normalizes the empty case to Python `None`, stores the result under the
`squeeze_dims` key of the node's attribute bag via
`Squeeze.update_node_stat`, and returns the class-level `enabled` flag.

The node carries two attribute stores: the read-only serialized
(protobuf) attributes that `onnx_attr` consults, and the mutable graph
attribute bag that `update_node_stat` writes to.
-/

/-- A value stored in the node's mutable attribute bag: here either a
numpy `int64` array (modelled as a list of integers, each within the
signed 64-bit range after conversion) or Python `None`. -/
inductive AttrValue where
  | intArr : List Int → AttrValue
  | pyNone : AttrValue
deriving DecidableEq, Repr

/-- One operator node of the imported graph: `raw` is the serialized
(protobuf) attribute store consulted by `onnx_attr` (for this extractor
only integer-list attributes matter), `attrs` is the mutable graph
attribute bag written by `update_node_stat`. -/
structure OperatorNode where
  raw : String → Option (List Int)
  attrs : String → Option AttrValue

/-- Total extension of the numpy `int64` element conversion: the
identity on the signed range `[-2^63, 2^63)`, where
`np.array(-, dtype=np.int64)` converts exactly, extended to all
integers by the modulo-`2^64` wrap. On out-of-range Python integers
numpy itself raises `OverflowError` instead of wrapping; that fallible
behavior is modelled faithfully by `npInt64` below, and the theorems
apply `toInt64` only where the two agree. -/
def toInt64 (x : Int) : Int :=
  (x + 2 ^ 63) % 2 ^ 64 - 2 ^ 63

/-- The numpy `int64` element conversion as numpy performs it:
a Python integer in the signed 64-bit range is converted exactly, and
any other value raises `OverflowError` (modelled as `none`). -/
def npInt64 (x : Int) : Option Int :=
  if -2 ^ 63 ≤ x ∧ x < 2 ^ 63 then some x else none

/-- `np.array(l, dtype=np.int64)` on a list of Python integers:
converts the elements one by one, raising `OverflowError` (`none`) as
soon as one is out of the signed 64-bit range. -/
def npArrayInt64 : List Int → Option (List Int)
  | [] => some []
  | x :: t => do
      let y ← npInt64 x
      let r ← npArrayInt64 t
      return y :: r

/-- Modelled from the spec: `onnx_attr(node, name, 'ints', default)`
(defined in `mo/front/onnx/extractors/utils.py`, which is not part of
the provided source) returns the integer-list attribute named `name`
from the serialized node, or `default` when the attribute is absent. -/
def onnx_attr (node : OperatorNode) (name : String) (dflt : List Int) : List Int :=
  (node.raw name).getD dflt

/-- Modelled from the spec: `Squeeze.update_node_stat(node, attrs)`
(defined in `mo/ops/squeeze.py`, which is not part of the provided
source) merges the given mapping into the node's mutable attribute bag
in place, overwriting existing keys and leaving all other keys and the
serialized attributes untouched. -/
def update_node_stat (node : OperatorNode) (updates : List (String × AttrValue)) :
    OperatorNode :=
  { node with
    attrs := fun k =>
      match updates.lookup k with
      | some v => some v
      | none => node.attrs k }

namespace SqueezeFrontExtractor

/-- `SqueezeFrontExtractor.op = 'Squeeze'`. -/
def op : String := "Squeeze"

/-- `SqueezeFrontExtractor.enabled = True`. -/
def enabled : Bool := true

/-- The attribute mapping `{'squeeze_dims': ...}` built by `extract`
from the raw `axes` value: the `int64` image of the list when
non-empty, `None` otherwise. -/
def squeezeAttrs (axesRaw : List Int) : List (String × AttrValue) :=
  let axis : List Int := axesRaw.map toInt64
  [("squeeze_dims", if axis.length ≠ 0 then AttrValue.intArr axis else AttrValue.pyNone)]

/-- `SqueezeFrontExtractor.extract(node)`: reads the `axes` attribute
(defaulting to the empty list), converts it to an `int64` array, stores
it (or `None` when empty) under `squeeze_dims`, and returns `enabled`.
The updated node is returned explicitly since the embedding is pure. -/
def extract (node : OperatorNode) : OperatorNode × Bool :=
  (update_node_stat node (squeezeAttrs (onnx_attr node "axes" [])), enabled)

end SqueezeFrontExtractor

/-- Lookup or update collaborator failure, per the spec's error model:
`extract` performed with a fallible lookup collaborator (result
`lookupR`) and a fallible update collaborator (`updateF`); any
collaborator failure propagates uncaught, since the source contains no
exception handling. -/
def extractFallible {ε : Type} (lookupR : Except ε (List Int))
    (updateF : OperatorNode → List (String × AttrValue) → Except ε OperatorNode)
    (node : OperatorNode) : Except ε (OperatorNode × Bool) := do
  let axesRaw ← lookupR
  let node' ← updateF node (SqueezeFrontExtractor.squeezeAttrs axesRaw)
  return (node', SqueezeFrontExtractor.enabled)

/-- `extract` with the numpy conversion modelled faithfully: the
`np.array(-, dtype=np.int64)` call raises `OverflowError` (`none`)
when some raw `axes` element is outside the signed 64-bit range, and
in that case nothing is stored on the node; otherwise the behavior is
that of `SqueezeFrontExtractor.extract`. -/
def extractNp (node : OperatorNode) : Option (OperatorNode × Bool) := do
  let axis ← npArrayInt64 (onnx_attr node "axes" [])
  let attrs : List (String × AttrValue) :=
    [("squeeze_dims", if axis.length ≠ 0 then AttrValue.intArr axis else AttrValue.pyNone)]
  return (update_node_stat node attrs, SqueezeFrontExtractor.enabled)

/-! ### Basic evaluation lemmas -/

lemma toInt64_of_mem_range (x : Int) (h1 : -2 ^ 63 ≤ x) (h2 : x < 2 ^ 63) :
    toInt64 x = x := by
  unfold toInt64
  have h3 : (0 : Int) ≤ x + 2 ^ 63 := by linarith
  have h4 : x + 2 ^ 63 < 2 ^ 64 := by linarith [pow_succ (2 : Int) 63]
  rw [Int.emod_eq_of_lt h3 h4]
  ring

lemma toInt64_nonneg_bound (x : Int) :
    -2 ^ 63 ≤ toInt64 x ∧ toInt64 x < 2 ^ 63 := by
  unfold toInt64
  have hpos : (0 : Int) < 2 ^ 64 := by positivity
  have h1 := Int.emod_nonneg (x + 2 ^ 63) (by positivity : (2 : Int) ^ 64 ≠ 0)
  have h2 := Int.emod_lt_of_pos (x + 2 ^ 63) hpos
  constructor
  · linarith
  · have : (2 : Int) ^ 64 = 2 ^ 63 + 2 ^ 63 := by norm_num
    linarith

lemma extract_attrs_squeeze_dims (node : OperatorNode) :
    ((SqueezeFrontExtractor.extract node).1).attrs "squeeze_dims" =
      some (if ((onnx_attr node "axes" []).map toInt64).length ≠ 0
            then AttrValue.intArr ((onnx_attr node "axes" []).map toInt64)
            else AttrValue.pyNone) := by
  simp [SqueezeFrontExtractor.extract, SqueezeFrontExtractor.squeezeAttrs,
    update_node_stat, List.lookup]

lemma map_toInt64_of_range (l : List Int)
    (hrange : ∀ x ∈ l, -2 ^ 63 ≤ x ∧ x < 2 ^ 63) : l.map toInt64 = l := by
  induction l with
  | nil => rfl
  | cons a t ih =>
      have ha := hrange a (List.mem_cons_self a t)
      simp only [List.map_cons, toInt64_of_mem_range a ha.1 ha.2,
        ih (fun x hx => hrange x (List.mem_cons_of_mem a hx))]

lemma update_node_stat_idem (node : OperatorNode)
    (us : List (String × AttrValue)) :
    update_node_stat (update_node_stat node us) us = update_node_stat node us := by
  unfold update_node_stat
  congr 1
  funext k
  cases h : us.lookup k <;> simp [h]

/-! ### Concrete nodes used by the witnesses -/

/-- A node carrying no serialized attributes and no graph attributes. -/
def nodeAbsent : OperatorNode := ⟨fun _ => none, fun _ => none⟩

/-- A node whose only serialized attribute is `axes = l`, with an empty
graph attribute bag. -/
def nodeAxes (l : List Int) : OperatorNode :=
  ⟨fun n => if n = "axes" then some l else none, fun _ => none⟩

/-- A node with no serialized attributes whose graph attribute bag
already holds a value under the key `other`. -/
def nodeOther : OperatorNode :=
  ⟨fun _ => none, fun k => if k = "other" then some AttrValue.pyNone else none⟩

/-! ### Claims -/

/-- C1: when the `axes` attribute is absent, or present but equal to
the empty sequence, `extract` stores `squeeze_dims = None` (the unset
marker); the two cases are indistinguishable in the output. -/
theorem squeeze_dims_unset_of_absent_or_empty (node : OperatorNode)
    (h : node.raw "axes" = none ∨ node.raw "axes" = some ([] : List Int)) :
    ((SqueezeFrontExtractor.extract node).1).attrs "squeeze_dims" =
      some AttrValue.pyNone := by
  rcases h with h | h <;> rw [extract_attrs_squeeze_dims] <;> simp [onnx_attr, h]

/-- Witness for C1: on a node with no attributes at all, `extract`
stores `squeeze_dims = None`. -/
theorem squeeze_dims_unset_of_absent_or_empty_witness :
    ((SqueezeFrontExtractor.extract nodeAbsent).1).attrs "squeeze_dims" =
      some AttrValue.pyNone :=
  squeeze_dims_unset_of_absent_or_empty nodeAbsent (Or.inl rfl)

/-- C2: when the `axes` attribute is present and non-empty, `extract`
stores `squeeze_dims` equal to exactly that sequence, order preserved
(the elements are signed 64-bit values as decoded from the serialized
`ints` field, so each is its own `int64` image). -/
theorem squeeze_dims_eq_axes_of_nonempty (node : OperatorNode) (l : List Int)
    (h : node.raw "axes" = some l) (hne : l ≠ [])
    (hrange : ∀ x ∈ l, -2 ^ 63 ≤ x ∧ x < 2 ^ 63) :
    ((SqueezeFrontExtractor.extract node).1).attrs "squeeze_dims" =
      some (AttrValue.intArr l) := by
  rw [extract_attrs_squeeze_dims]
  simp [onnx_attr, h, map_toInt64_of_range l hrange, hne]

/-- Witness for C2: `axes = [0, 2]` is stored as `squeeze_dims = [0, 2]`. -/
theorem squeeze_dims_eq_axes_of_nonempty_witness :
    ((SqueezeFrontExtractor.extract (nodeAxes [0, 2])).1).attrs "squeeze_dims" =
      some (AttrValue.intArr [0, 2]) :=
  squeeze_dims_eq_axes_of_nonempty (nodeAxes [0, 2]) [0, 2] rfl
    (by decide) (by decide)

/-- C3: `extract` returns `handled = true` on every node,
unconditionally. -/
theorem extract_returns_handled (node : OperatorNode) :
    (SqueezeFrontExtractor.extract node).2 = true := rfl

/-- C4: the `squeeze_dims` value written onto the node is never an
empty sequence: for every input it is either the unset marker `None`
or a non-empty integer array. -/
theorem squeeze_dims_never_empty (node : OperatorNode) :
    ((SqueezeFrontExtractor.extract node).1).attrs "squeeze_dims" =
      some AttrValue.pyNone ∨
    ∃ l : List Int, l ≠ [] ∧
      ((SqueezeFrontExtractor.extract node).1).attrs "squeeze_dims" =
        some (AttrValue.intArr l) := by
  rw [extract_attrs_squeeze_dims]
  by_cases hl : ((onnx_attr node "axes" []).map toInt64).length ≠ 0
  · refine Or.inr ⟨(onnx_attr node "axes" []).map toInt64, ?_, by rw [if_pos hl]⟩
    intro hnil
    exact hl (by rw [hnil]; rfl)
  · exact Or.inl (by rw [if_neg hl])

/-- C5: extraction is idempotent: running `extract` on the node it
already produced yields the same updated node and the same handled
flag as the first run (the update writes only the graph attribute bag,
so the second lookup of `axes` sees the same raw value). -/
theorem extract_idempotent (node : OperatorNode) :
    SqueezeFrontExtractor.extract (SqueezeFrontExtractor.extract node).1 =
      SqueezeFrontExtractor.extract node := by
  have h := update_node_stat_idem node
    (SqueezeFrontExtractor.squeezeAttrs (onnx_attr node "axes" []))
  exact congrArg (fun n => (n, SqueezeFrontExtractor.enabled)) h

/-- C6: `extract` only writes the single key `squeeze_dims` into the
node's graph attribute bag: every other attribute key keeps its old
value, and the serialized attribute store is untouched (the embedding
is a pure function, so there is no other observable effect). -/
theorem extract_writes_only_squeeze_dims (node : OperatorNode) (k : String)
    (hk : k ≠ "squeeze_dims") :
    ((SqueezeFrontExtractor.extract node).1).attrs k = node.attrs k ∧
    ((SqueezeFrontExtractor.extract node).1).raw = node.raw := by
  refine ⟨?_, rfl⟩
  simp [SqueezeFrontExtractor.extract, SqueezeFrontExtractor.squeezeAttrs,
    update_node_stat, List.lookup, beq_eq_false_iff_ne.mpr hk]

/-- Witness for C6: on a node already holding an attribute under the
key `other`, extraction leaves that attribute and the raw store
unchanged. -/
theorem extract_writes_only_squeeze_dims_witness :
    ((SqueezeFrontExtractor.extract nodeOther).1).attrs "other" =
      nodeOther.attrs "other" ∧
    ((SqueezeFrontExtractor.extract nodeOther).1).raw = nodeOther.raw :=
  extract_writes_only_squeeze_dims nodeOther "other" (by decide)

/-- C7: `extract` raises no error of its own: run with fallible
collaborators, it fails exactly when the lookup or the update
collaborator fails, returning that collaborator's error unchanged
(no catch, reinterpretation, or recovery), and with a successful
lookup and the real update it succeeds with the pure result. -/
theorem extract_propagates_collaborator_failures {ε : Type}
    (lookupR : Except ε (List Int))
    (updateF : OperatorNode → List (String × AttrValue) → Except ε OperatorNode)
    (node : OperatorNode) :
    (extractFallible lookupR updateF node =
      match lookupR with
      | Except.error e => Except.error e
      | Except.ok l =>
          match updateF node (SqueezeFrontExtractor.squeezeAttrs l) with
          | Except.error e => Except.error e
          | Except.ok n' => Except.ok (n', SqueezeFrontExtractor.enabled)) ∧
    extractFallible (Except.ok (onnx_attr node "axes" []) : Except ε (List Int))
        (fun n a => Except.ok (update_node_stat n a)) node =
      Except.ok (SqueezeFrontExtractor.extract node) := by
  constructor
  · cases lookupR with
    | error e => rfl
    | ok l =>
        cases h : updateF node (SqueezeFrontExtractor.squeezeAttrs l) with
        | error e =>
            simp [extractFallible, h, bind, Except.bind, Functor.map, Except.map]
        | ok n' =>
            simp [extractFallible, h, bind, Except.bind, Functor.map, Except.map,
              pure, Except.pure]
  · rfl

/-- C8: the extractor's registration data is the fixed operator-name
key `Squeeze` and the enabled flag `true`; they are constants, and the
only operation of the component returns the flag unchanged. -/
theorem registration_constants :
    SqueezeFrontExtractor.op = "Squeeze" ∧
    SqueezeFrontExtractor.enabled = true ∧
    ∀ node : OperatorNode,
      (SqueezeFrontExtractor.extract node).2 = SqueezeFrontExtractor.enabled :=
  ⟨rfl, rfl, fun _ => rfl⟩

lemma npArrayInt64_of_range (l : List Int)
    (h : ∀ x ∈ l, -2 ^ 63 ≤ x ∧ x < 2 ^ 63) : npArrayInt64 l = some l := by
  induction l with
  | nil => rfl
  | cons a t ih =>
      have ha : npInt64 a = some a := by
        unfold npInt64
        exact if_pos (h a (List.mem_cons_self a t))
      have ht := ih (fun x hx => h x (List.mem_cons_of_mem a hx))
      simp [npArrayInt64, ha, ht]

lemma npArrayInt64_none_of_out (l : List Int) (x : Int) (hx : x ∈ l)
    (hout : ¬(-2 ^ 63 ≤ x ∧ x < 2 ^ 63)) : npArrayInt64 l = none := by
  induction l with
  | nil => cases hx
  | cons a t ih =>
      rcases List.mem_cons.mp hx with rfl | hmem
      · have ha : npInt64 x = none := by
          unfold npInt64
          exact if_neg hout
        simp [npArrayInt64, ha]
      · cases h : npInt64 a <;> simp [npArrayInt64, h, ih hmem]

/-- Counterexample to C9: at raw `axes = [2^64 + 5]` the claimed
modulo-`2^64` semantics would store the `int64` image `5`, but the
numpy conversion raises `OverflowError` for a Python integer outside
the signed 64-bit range, so extraction fails there and stores
nothing. -/
theorem squeeze_dims_int64_images_cex :
    extractNp (nodeAxes [2 ^ 64 + 5]) = none ∧ toInt64 (2 ^ 64 + 5) = 5 := by
  constructor
  · norm_num [extractNp, npArrayInt64, npInt64, onnx_attr, nodeAxes]
  · norm_num [toInt64]

/-- C9 (amended): for a present, non-empty `axes` value the elements
are interpreted as signed 64-bit integers: when every raw element lies
in the signed range `[-2^63, 2^63)` — always the case for values
decoded from the protobuf `ints` field — the conversion is exact and
`squeeze_dims` stores exactly those elements; when some element is
outside that range the numpy conversion raises `OverflowError` and
nothing is stored. -/
theorem squeeze_dims_int64_exact_or_overflow (node : OperatorNode) (l : List Int)
    (h : node.raw "axes" = some l) (hne : l ≠ []) :
    ((∀ x ∈ l, -2 ^ 63 ≤ x ∧ x < 2 ^ 63) →
      extractNp node =
        some (update_node_stat node [("squeeze_dims", AttrValue.intArr l)],
          SqueezeFrontExtractor.enabled)) ∧
    (∀ x ∈ l, ¬(-2 ^ 63 ≤ x ∧ x < 2 ^ 63) → extractNp node = none) := by
  constructor
  · intro hrange
    simp [extractNp, onnx_attr, h, npArrayInt64_of_range l hrange, hne]
  · intro x hx hout
    simp [extractNp, onnx_attr, h, npArrayInt64_none_of_out l x hx hout]

/-- Witness for C9 (amended): `axes = [1]` is stored exactly as
`squeeze_dims = [1]`, while `axes = [2^64 + 5]` makes the conversion
raise and extraction store nothing. -/
theorem squeeze_dims_int64_exact_or_overflow_witness :
    extractNp (nodeAxes [1]) =
      some (update_node_stat (nodeAxes [1]) [("squeeze_dims", AttrValue.intArr [1])],
        SqueezeFrontExtractor.enabled) ∧
    extractNp (nodeAxes [2 ^ 64 + 5]) = none := by
  constructor
  · refine (squeeze_dims_int64_exact_or_overflow (nodeAxes [1]) [1] rfl
      (List.cons_ne_nil 1 [])).1 ?_
    intro x hx
    rw [List.mem_singleton] at hx
    subst hx
    norm_num
  · refine (squeeze_dims_int64_exact_or_overflow (nodeAxes [2 ^ 64 + 5])
      [2 ^ 64 + 5] rfl (List.cons_ne_nil _ [])).2 (2 ^ 64 + 5)
      (List.mem_singleton_self _) ?_
    intro hc
    have h2 := hc.2
    norm_num at h2

/-- C10: extraction is deterministic and depends only on the looked-up
`axes` value: two nodes whose defaulted `axes` lookups yield equal
sequences (in particular an absent attribute and a present empty one,
which both yield the default `[]`) receive equal `squeeze_dims` values
and equal handled flags, whatever their other attributes. -/
theorem extract_depends_only_on_axes (n1 n2 : OperatorNode)
    (h : onnx_attr n1 "axes" [] = onnx_attr n2 "axes" []) :
    ((SqueezeFrontExtractor.extract n1).1).attrs "squeeze_dims" =
      ((SqueezeFrontExtractor.extract n2).1).attrs "squeeze_dims" ∧
    (SqueezeFrontExtractor.extract n1).2 = (SqueezeFrontExtractor.extract n2).2 := by
  refine ⟨?_, rfl⟩
  rw [extract_attrs_squeeze_dims, extract_attrs_squeeze_dims, h]

/-- Witness for C10: a node with no `axes` attribute and a node with
`axes` present but empty have equal defaulted lookups, and receive the
same `squeeze_dims` value and the same handled flag. -/
theorem extract_depends_only_on_axes_witness :
    ((SqueezeFrontExtractor.extract nodeAbsent).1).attrs "squeeze_dims" =
      ((SqueezeFrontExtractor.extract (nodeAxes [])).1).attrs "squeeze_dims" ∧
    (SqueezeFrontExtractor.extract nodeAbsent).2 =
      (SqueezeFrontExtractor.extract (nodeAxes [])).2 :=
  extract_depends_only_on_axes nodeAbsent (nodeAxes []) rfl
